import Mathlib

/-!
Verification of the store/update mechanism and the todo action functions of
`src/App.js` (react-context-demo).

Embedding notes.

* A todo record `{ id?: number, title: string, done: boolean }` is embedded as
  `Todo` with `id : Option Nat` (`none` = the `id` field is absent/undefined).
  JavaScript ids produced by `Math.random()` are abstracted as naturals; the
  JavaScript truthiness test `!todo.id` (App.js line 65) is false for an absent
  id and also for the number `0`, which `Todo.idTruthy` reflects.

* `Store.update` (App.js lines 19-27) runs immer's `produce` on the current
  state and notifies listeners only when `newState !== this.state`.  `produce`
  returns the base object (reference-identical) exactly when the recipe records
  no effective change, and a freshly allocated object (never reference-identical
  to the base) otherwise.  We therefore embed a recipe as
  `Updater = AppState → Option AppState`: `none` stands for "produce returned
  the base reference", `some s'` for "produce built the fresh snapshot `s'`".
  The guard `newState && newState !== this.state` holds exactly on `some`
  (the state is always an object, hence truthy).

* Each concrete recipe passed to `store.update` in App.js is embedded
  following immer's rule that assigning a property marks the draft modified
  unless the assigned value is `Object.is`-identical to the current one:
  assigning a freshly built object or array always marks it modified,
  assigning a primitive marks it modified only when the value changes.

* The listener collection is a JavaScript `Set`, which iterates in insertion
  order and holds no duplicates: embedded as a duplicate-free `List` of
  listener identifiers, with `forEach` notification as a `map` over it.
-/

namespace TodoApp

/-- A todo record `{ id?, title, done }`; `id = none` means the field is absent. -/
structure Todo where
  id : Option Nat
  title : String
  done : Bool
deriving DecidableEq, Repr

/-- JavaScript truthiness of `todo.id`: false when the field is absent
(`undefined`) and when the numeric id is `0` (App.js line 65 tests `!todo.id`). -/
def Todo.idTruthy (t : Todo) : Bool :=
  match t.id with
  | none => false
  | some n => n != 0

/-- The reset draft `{ title: '', done: false }` (App.js lines 71, 96). -/
def emptyDraft : Todo := ⟨none, "", false⟩

/-- The application state record (App.js lines 30-38): `saving`, `loading`,
the in-edit `todo`, and the list `todos`. -/
structure AppState where
  saving : Bool
  loading : Bool
  todo : Todo
  todos : List Todo
deriving DecidableEq, Repr

/-- The initial state passed to `new Store(...)` (App.js lines 30-38). -/
def initialState : AppState :=
  { saving := false, loading := false, todo := { id := none, title := "", done := false }, todos := [] }

abbrev ListenerId := Nat

/-- The store (App.js lines 4-28): current state plus the listener `Set`,
embedded as a duplicate-free list in insertion order. -/
structure Store where
  state : AppState
  listeners : List ListenerId
deriving DecidableEq, Repr

/-- `subscribe(listener)` (App.js lines 10-13): `Set.add` is a no-op on a
member, otherwise appends in insertion order. -/
def Store.subscribe (st : Store) (l : ListenerId) : Store :=
  if l ∈ st.listeners then st else { st with listeners := st.listeners ++ [l] }

/-- The unsubscribe closure returned by `subscribe` (App.js line 12):
`Set.delete` removes the listener, keeping the order of the rest. -/
def Store.unsubscribe (st : Store) (l : ListenerId) : Store :=
  { st with listeners := st.listeners.erase l }

/-- `notify()` (App.js lines 15-17): call every listener with the current
state, in iteration (= insertion) order.  A call is recorded as the pair
(listener, state passed to it). -/
def Store.notify (st : Store) : List (ListenerId × AppState) :=
  st.listeners.map fun l => (l, st.state)

/-- An immer recipe as run by `Store.update`: `none` = `produce` returned the
base state (reference-identical, no effective change), `some s'` = `produce`
built the fresh snapshot `s'`. -/
abbrev Updater := AppState → Option AppState

/-- `update(updater)` (App.js lines 19-27): run `produce`; if the result is a
new (hence reference-distinct, truthy) snapshot, install it and notify every
listener with it; otherwise do nothing.  Returns the store after the call and
the list of listener invocations it performed. -/
def Store.update (st : Store) (u : Updater) : Store × List (ListenerId × AppState) :=
  match u st.state with
  | none => (st, [])
  | some s' => (({ st with state := s' } : Store), ({ st with state := s' } : Store).notify)

/-- A sequence of `update` calls, concatenating the listener invocations. -/
def Store.updateAll : Store → List Updater → Store × List (ListenerId × AppState)
  | st, [] => (st, [])
  | st, u :: us =>
    (((st.update u).1.updateAll us).1, (st.update u).2 ++ ((st.update u).1.updateAll us).2)

/-! ### The recipes passed to `store.update` by the action functions -/

/-- Recipe `draft => (draft.loading = true)` (App.js line 41).  Assigning the
primitive `true` marks the draft modified only when `loading` was `false`. -/
def setLoadingTrue : Updater := fun s =>
  if s.loading then none else some { s with loading := true }

/-- Recipe `draft => (draft.saving = true)` (App.js lines 59 and 89). -/
def setSavingTrue : Updater := fun s =>
  if s.saving then none else some { s with saving := true }

/-- The delayed recipe of `fetchTodos` (App.js lines 45-53): assigns a fresh
three-element array to `draft.todos` (always a modification) and sets
`loading = false`.  The three `Math.random()` ids are parameters. -/
def fetchResolve (id1 id2 id3 : Nat) : Updater := fun s =>
  some { s with
    todos := [⟨some id1, "Hello...", false⟩, ⟨some id2, "World...", false⟩,
              ⟨some id3, "Hello World...", true⟩],
    loading := false }

/-- The delayed recipe of `saveTodo` (App.js lines 63-74): if `!todo.id`
(absent or zero id) assign the fresh id and push the todo, else replace every
entry whose id strict-equals `todo.id`; then reset `draft.todo` to the empty
draft (a fresh object, so always a modification) and clear `saving`. -/
def saveResolve (newId : Nat) : Updater := fun s =>
  some (if !s.todo.idTruthy then
    { s with
      todos := s.todos ++ [{ s.todo with id := some newId }],
      todo := emptyDraft, saving := false }
  else
    { s with
      todos := s.todos.map fun item => if item.id = s.todo.id then s.todo else item,
      todo := emptyDraft, saving := false })

/-- A partial todo passed to `updateTodo` (App.js line 79): each field is
present (`some`) or absent from the object literal (`none`).  Call sites pass
`{ done: ... }` and `{ title: ... }` only, but the function accepts any shape. -/
structure TodoPatch where
  id : Option (Option Nat)
  title : Option String
  done : Option Bool
deriving DecidableEq, Repr

/-- Object spread `{ ...draft.todo, ...patch }`: fields present in the patch
override the draft's. -/
def Todo.merge (t : Todo) (p : TodoPatch) : Todo :=
  { id := p.id.getD t.id, title := p.title.getD t.title, done := p.done.getD t.done }

/-- The recipe of `updateTodo` (App.js lines 80-85): assign the merged object
to `draft.todo` (fresh object, always a modification); if `current.id` is
truthy, also replace every `todos` entry whose id strict-equals it. -/
def updateTodoU (p : TodoPatch) : Updater := fun s =>
  some (if (s.todo.merge p).idTruthy then
    { s with
      todo := s.todo.merge p,
      todos := s.todos.map fun item =>
        if item.id = (s.todo.merge p).id then s.todo.merge p else item }
  else
    { s with todo := s.todo.merge p })

/-- The delayed recipe of `removeTodo` (App.js lines 94-98): keep the entries
whose id strict-differs from the removed todo's id (fresh array, always a
modification), reset `draft.todo`, clear `saving`. -/
def removeResolve (target : Todo) : Updater := fun s =>
  some { s with
    todos := s.todos.filter fun item => item.id != target.id,
    todo := emptyDraft, saving := false }

/-- State reached after running a recipe through `store.update`: the store
keeps its state when `produce` returns the base reference. -/
def applyU (u : Updater) (s : AppState) : AppState := (u s).getD s

/-- `selectTodo(todo)` (App.js lines 104-108): `draft.todo = todo`.  When the
assigned object is reference-identical to the current `draft.todo` immer
records no change, and then `{ s with todo := t } = s` anyway, so the
resulting state is `{ s with todo := t }` in every case. -/
def selectTodoRun (t : Todo) (s : AppState) : AppState := { s with todo := t }

/-- State after `fetchTodos()` has resolved (App.js lines 40-56): the
immediate `loading = true` update followed by the delayed one. -/
def fetchTodosRun (id1 id2 id3 : Nat) (s : AppState) : AppState :=
  applyU (fetchResolve id1 id2 id3) (applyU setLoadingTrue s)

/-- State after `saveTodo()` has resolved (App.js lines 58-77). -/
def saveTodoRun (newId : Nat) (s : AppState) : AppState :=
  applyU (saveResolve newId) (applyU setSavingTrue s)

/-- State after `removeTodo(target)` has resolved (App.js lines 88-102). -/
def removeTodoRun (target : Todo) (s : AppState) : AppState :=
  applyU (removeResolve target) (applyU setSavingTrue s)

/-- State after the synchronous `updateTodo(patch)` (App.js lines 79-86). -/
def updateTodoRun (p : TodoPatch) (s : AppState) : AppState :=
  applyU (updateTodoU p) s

/-! ### Store lemmas -/

/-- An `update` call never changes the listener set. -/
theorem update_fst_listeners (st : Store) (u : Updater) :
    (st.update u).1.listeners = st.listeners := by
  unfold Store.update
  cases u st.state <;> rfl

/-- Every listener invocation an `update` call performs targets a listener
subscribed at the time of the call. -/
theorem mem_update_snd (st : Store) (u : Updater) (q : ListenerId × AppState)
    (hq : q ∈ (st.update u).2) : q.1 ∈ st.listeners := by
  unfold Store.update at hq
  cases h : u st.state with
  | none => rw [h] at hq; simp at hq
  | some s' =>
    rw [h] at hq
    simp only [Store.notify, List.mem_map] at hq
    obtain ⟨l, hl, rfl⟩ := hq
    exact hl

/-- Every listener invocation a sequence of `update` calls performs targets a
listener subscribed before the sequence started (updates do not resubscribe). -/
theorem mem_updateAll_snd (us : List Updater) (st : Store) (q : ListenerId × AppState)
    (hq : q ∈ (st.updateAll us).2) : q.1 ∈ st.listeners := by
  induction us generalizing st with
  | nil => simp [Store.updateAll] at hq
  | cons u us ih =>
    simp only [Store.updateAll, List.mem_append] at hq
    rcases hq with h1 | h2
    · exact mem_update_snd st u q h1
    · have h3 := ih (st.update u).1 h2
      rwa [update_fst_listeners] at h3

/-- Claim C1: if the editing function makes no observable change — immer's
`produce` hands back the base snapshot, reference-identical to the prior one —
then `update` invokes no subscribed listener (and leaves the store untouched).
Quantifying over every store covers every point of every sequence of `update`
calls. -/
theorem update_noop_no_notify (st : Store) (u : Updater) (h : u st.state = none) :
    st.update u = (st, []) := by
  unfold Store.update
  rw [h]

/-- Witness for C1: a `draft.loading = true` recipe on a state whose `loading`
is already `true` records no change, and the update performs no invocation. -/
theorem update_noop_no_notify_witness :
    setLoadingTrue (AppState.mk false true ⟨none, "", false⟩ []) = none ∧
    (Store.mk (AppState.mk false true ⟨none, "", false⟩ []) [0, 1]).update setLoadingTrue =
      (Store.mk (AppState.mk false true ⟨none, "", false⟩ []) [0, 1], []) :=
  ⟨by decide,
   update_noop_no_notify (Store.mk (AppState.mk false true ⟨none, "", false⟩ []) [0, 1])
     setLoadingTrue (by decide)⟩

/-- Claim C2: if the editing function produces a reference-distinct snapshot
(`produce` built a fresh object `s'`), `update` installs `s'` as the current
state and synchronously invokes every currently-subscribed listener with `s'`,
in subscription order. -/
theorem update_change_notifies (st : Store) (u : Updater) (s' : AppState)
    (h : u st.state = some s') :
    (st.update u).1 = { st with state := s' } ∧
    (st.update u).2 = st.listeners.map (fun l => (l, s')) := by
  unfold Store.update
  rw [h]
  exact ⟨rfl, rfl⟩

/-- Witness for C2: a `draft.loading = true` recipe on the initial state
produces a fresh snapshot, and both subscribed listeners are invoked with it,
in subscription order. -/
theorem update_change_notifies_witness :
    setLoadingTrue initialState = some (AppState.mk false true ⟨none, "", false⟩ []) ∧
    ((Store.mk initialState [3, 7]).update setLoadingTrue).1 =
      { Store.mk initialState [3, 7] with state := AppState.mk false true ⟨none, "", false⟩ [] } ∧
    ((Store.mk initialState [3, 7]).update setLoadingTrue).2 =
      (Store.mk initialState [3, 7]).listeners.map
        (fun l => (l, AppState.mk false true ⟨none, "", false⟩ [])) := by
  refine ⟨by decide, ?_⟩
  exact update_change_notifies (Store.mk initialState [3, 7]) setLoadingTrue
    (AppState.mk false true ⟨none, "", false⟩ []) (by decide)

/-- Claim C10: once the unsubscribe closure returned by `subscribe` has run,
no subsequent sequence of `update` calls invokes that listener (no `update`
resubscribes it).  The `Nodup` hypothesis is the JavaScript `Set` invariant,
which `Store.subscribe` maintains. -/
theorem unsubscribed_never_notified (st : Store) (l : ListenerId) (us : List Updater)
    (h : st.listeners.Nodup) :
    (((st.unsubscribe l).updateAll us).2.all fun q => q.1 != l) = true := by
  rw [List.all_eq_true]
  intro q hq
  have hmem : q.1 ∈ (st.unsubscribe l).listeners := mem_updateAll_snd us _ q hq
  simp only [Store.unsubscribe] at hmem
  have hne : q.1 ≠ l := by
    intro he
    rw [he] at hmem
    exact h.not_mem_erase hmem
  simpa using hne

/-- Witness for C10: listener `0` unsubscribes from a two-listener store; a
subsequent effective update invokes only listener `1`. -/
theorem unsubscribed_never_notified_witness :
    ([0, 1] : List ListenerId).Nodup ∧
    ((((Store.mk initialState [0, 1]).unsubscribe 0).updateAll [setLoadingTrue]).2.all
      fun q => q.1 != 0) = true :=
  ⟨by decide,
   unsubscribed_never_notified (Store.mk initialState [0, 1]) 0 [setLoadingTrue] (by decide)⟩

/-! ### Action-function theorems -/

/-- Claim C4: `fetchTodos()` first sets `loading = true`; after the delay it
replaces `todos` with the three seed records and clears `loading`, so once it
resolves `todos` has exactly 3 entries and `loading` is false. -/
theorem fetchTodos_spec (id1 id2 id3 : Nat) (s : AppState) :
    (applyU setLoadingTrue s).loading = true ∧
    (fetchTodosRun id1 id2 id3 s).todos =
      [⟨some id1, "Hello...", false⟩, ⟨some id2, "World...", false⟩,
       ⟨some id3, "Hello World...", true⟩] ∧
    (fetchTodosRun id1 id2 id3 s).todos.length = 3 ∧
    (fetchTodosRun id1 id2 id3 s).loading = false := by
  unfold fetchTodosRun applyU setLoadingTrue fetchResolve
  by_cases h : s.loading <;> simp [h]

/-- Claim C5: saving a fresh draft (no `id`) appends it, with the fresh id,
to the end of `todos` — keeping its `title` and `done` — so the length grows by
exactly one; the draft resets to `{ title: '', done: false }` and `saving`
clears. -/
theorem saveTodo_fresh_spec (newId : Nat) (s : AppState) (h : s.todo.id = none) :
    (saveTodoRun newId s).todos = s.todos ++ [⟨some newId, s.todo.title, s.todo.done⟩] ∧
    (saveTodoRun newId s).todos.length = s.todos.length + 1 ∧
    (saveTodoRun newId s).todo = emptyDraft ∧
    (saveTodoRun newId s).saving = false := by
  unfold saveTodoRun applyU setSavingTrue saveResolve
  by_cases hs : s.saving <;> simp [hs, Todo.idTruthy, h]

/-- Witness for C5: saving the fresh draft `{ title: 'milk', done: true }`
appends `{ id: 9, title: 'milk', done: true }` to the empty list. -/
theorem saveTodo_fresh_spec_witness :
    (AppState.mk false false ⟨none, "milk", true⟩ []).todo.id = none ∧
    ((saveTodoRun 9 (AppState.mk false false ⟨none, "milk", true⟩ [])).todos =
        ([] : List Todo) ++ [⟨some 9, (Todo.mk none "milk" true).title, (Todo.mk none "milk" true).done⟩] ∧
      (saveTodoRun 9 (AppState.mk false false ⟨none, "milk", true⟩ [])).todos.length =
        ([] : List Todo).length + 1 ∧
      (saveTodoRun 9 (AppState.mk false false ⟨none, "milk", true⟩ [])).todo = emptyDraft ∧
      (saveTodoRun 9 (AppState.mk false false ⟨none, "milk", true⟩ [])).saving = false) :=
  ⟨rfl, saveTodo_fresh_spec 9 (AppState.mk false false ⟨none, "milk", true⟩ []) rfl⟩

/-- Claim C7: after `removeTodo(target)` resolves, no entry of `todos` has the
removed todo's id, the in-edit draft is reset, `saving` is false — and the
call set `saving = true` first. -/
theorem removeTodo_spec (target : Todo) (s : AppState) :
    ((removeTodoRun target s).todos.all fun it => it.id != target.id) = true ∧
    (removeTodoRun target s).todo = emptyDraft ∧
    (removeTodoRun target s).saving = false ∧
    (applyU setSavingTrue s).saving = true := by
  unfold removeTodoRun applyU setSavingTrue removeResolve
  by_cases hs : s.saving <;> simp [hs, List.all_eq_true]

/-- Counterexample to claim C6 as stated: the code branches on the JavaScript
truthiness of `todo.id` (`!todo.id`, App.js line 65), not on its presence.
With the in-edit todo carrying the id `0` — which `Math.random()` can return —
and `0` already present in `todos`, `saveTodo` takes the fresh branch and
appends, so `todos.length` grows instead of staying unchanged. -/
theorem saveTodo_existing_cex :
    (AppState.mk false false ⟨some 0, "a", false⟩ [⟨some 0, "a", false⟩]).todo.id = some 0 ∧
    some 0 ∈ (AppState.mk false false ⟨some 0, "a", false⟩ [⟨some 0, "a", false⟩]).todos.map
      Todo.id ∧
    (saveTodoRun 7 (AppState.mk false false ⟨some 0, "a", false⟩
        [⟨some 0, "a", false⟩])).todos.length ≠
      (AppState.mk false false ⟨some 0, "a", false⟩ [⟨some 0, "a", false⟩]).todos.length := by
  decide

/-- Claim C6 (amended: the in-edit todo's id must be nonzero, i.e.
JavaScript-truthy): saving a draft whose id matches an existing entry replaces
every id-matching entry with the draft's fields, keeps `todos.length`
unchanged, resets the draft and clears `saving`. -/
theorem saveTodo_existing_spec (newId : Nat) (s : AppState) (n : Nat)
    (hid : s.todo.id = some n) (hn : n ≠ 0)
    (_hmem : some n ∈ s.todos.map Todo.id) :
    (saveTodoRun newId s).todos =
      (s.todos.map fun item => if item.id = s.todo.id then s.todo else item) ∧
    (saveTodoRun newId s).todos.length = s.todos.length ∧
    (saveTodoRun newId s).todo = emptyDraft ∧
    (saveTodoRun newId s).saving = false := by
  unfold saveTodoRun applyU setSavingTrue saveResolve
  by_cases hs : s.saving <;> simp [hs, Todo.idTruthy, hid, hn]

/-- Witness for the amended C6: saving the draft `{ id: 2, title: 'x', done: true }`
replaces the matching entry and keeps the length at 2. -/
theorem saveTodo_existing_spec_witness :
    (AppState.mk false false ⟨some 2, "x", true⟩
        [⟨some 2, "old", false⟩, ⟨some 3, "keep", false⟩]).todo.id = some 2 ∧
    (2 : Nat) ≠ 0 ∧
    some 2 ∈ (AppState.mk false false ⟨some 2, "x", true⟩
        [⟨some 2, "old", false⟩, ⟨some 3, "keep", false⟩]).todos.map Todo.id ∧
    ((saveTodoRun 9 (AppState.mk false false ⟨some 2, "x", true⟩
          [⟨some 2, "old", false⟩, ⟨some 3, "keep", false⟩])).todos =
        ((AppState.mk false false ⟨some 2, "x", true⟩
            [⟨some 2, "old", false⟩, ⟨some 3, "keep", false⟩]).todos.map fun item =>
          if item.id = (AppState.mk false false ⟨some 2, "x", true⟩
              [⟨some 2, "old", false⟩, ⟨some 3, "keep", false⟩]).todo.id then
            (AppState.mk false false ⟨some 2, "x", true⟩
              [⟨some 2, "old", false⟩, ⟨some 3, "keep", false⟩]).todo
          else item) ∧
      (saveTodoRun 9 (AppState.mk false false ⟨some 2, "x", true⟩
          [⟨some 2, "old", false⟩, ⟨some 3, "keep", false⟩])).todos.length =
        (AppState.mk false false ⟨some 2, "x", true⟩
          [⟨some 2, "old", false⟩, ⟨some 3, "keep", false⟩]).todos.length ∧
      (saveTodoRun 9 (AppState.mk false false ⟨some 2, "x", true⟩
          [⟨some 2, "old", false⟩, ⟨some 3, "keep", false⟩])).todo = emptyDraft ∧
      (saveTodoRun 9 (AppState.mk false false ⟨some 2, "x", true⟩
          [⟨some 2, "old", false⟩, ⟨some 3, "keep", false⟩])).saving = false) :=
  ⟨rfl, by decide, by decide,
   saveTodo_existing_spec 9 (AppState.mk false false ⟨some 2, "x", true⟩
     [⟨some 2, "old", false⟩, ⟨some 3, "keep", false⟩]) 2 rfl (by decide) (by decide)⟩

/-- Counterexample to claim C8 as stated: `updateTodo` propagates into `todos`
only when the merged draft's id is JavaScript-truthy (`if (current.id)`,
App.js line 82).  With the in-edit todo carrying the id `0`, matching an entry
of `todos`, the patch `{ done: true }` updates `todo.done` but leaves the
matching `todos` entry untouched. -/
theorem updateTodo_existing_cex :
    (AppState.mk false false ⟨some 0, "a", false⟩ [⟨some 0, "a", false⟩]).todo.id = some 0 ∧
    some 0 ∈ (AppState.mk false false ⟨some 0, "a", false⟩ [⟨some 0, "a", false⟩]).todos.map
      Todo.id ∧
    (updateTodoRun ⟨none, none, some true⟩
      (AppState.mk false false ⟨some 0, "a", false⟩ [⟨some 0, "a", false⟩])).todo.done = true ∧
    (updateTodoRun ⟨none, none, some true⟩
        (AppState.mk false false ⟨some 0, "a", false⟩ [⟨some 0, "a", false⟩])).todos =
      [⟨some 0, "a", false⟩] := by
  decide

/-- Claim C8 (amended: the in-edit todo's id must be nonzero, i.e.
JavaScript-truthy; the patch carries no `id` field, as at every call site):
`updateTodo(patch)` — a single synchronous `store.update` call, no delay —
sets the in-edit todo to the merge and replaces every id-matching `todos`
entry with that same merged value, so both reflect the patch immediately. -/
theorem updateTodo_existing_spec (p : TodoPatch) (s : AppState) (n : Nat)
    (hp : p.id = none) (hid : s.todo.id = some n) (hn : n ≠ 0)
    (_hmem : some n ∈ s.todos.map Todo.id) :
    (updateTodoRun p s).todo = s.todo.merge p ∧
    (updateTodoRun p s).todos =
      (s.todos.map fun item => if item.id = s.todo.id then s.todo.merge p else item) := by
  unfold updateTodoRun applyU updateTodoU
  simp [Todo.merge, Todo.idTruthy, hp, hid, hn]

/-- Witness for the amended C8: patching `{ done: true }` while editing the
existing todo `2` updates the draft and the matching list entry together. -/
theorem updateTodo_existing_spec_witness :
    (TodoPatch.mk none none (some true)).id = none ∧
    (AppState.mk false false ⟨some 2, "x", false⟩
        [⟨some 2, "x", false⟩, ⟨some 5, "y", true⟩]).todo.id = some 2 ∧
    (2 : Nat) ≠ 0 ∧
    some 2 ∈ (AppState.mk false false ⟨some 2, "x", false⟩
        [⟨some 2, "x", false⟩, ⟨some 5, "y", true⟩]).todos.map Todo.id ∧
    ((updateTodoRun (TodoPatch.mk none none (some true))
          (AppState.mk false false ⟨some 2, "x", false⟩
            [⟨some 2, "x", false⟩, ⟨some 5, "y", true⟩])).todo =
        (AppState.mk false false ⟨some 2, "x", false⟩
          [⟨some 2, "x", false⟩, ⟨some 5, "y", true⟩]).todo.merge
          (TodoPatch.mk none none (some true)) ∧
      (updateTodoRun (TodoPatch.mk none none (some true))
          (AppState.mk false false ⟨some 2, "x", false⟩
            [⟨some 2, "x", false⟩, ⟨some 5, "y", true⟩])).todos =
        ((AppState.mk false false ⟨some 2, "x", false⟩
            [⟨some 2, "x", false⟩, ⟨some 5, "y", true⟩]).todos.map fun item =>
          if item.id = (AppState.mk false false ⟨some 2, "x", false⟩
              [⟨some 2, "x", false⟩, ⟨some 5, "y", true⟩]).todo.id then
            (AppState.mk false false ⟨some 2, "x", false⟩
              [⟨some 2, "x", false⟩, ⟨some 5, "y", true⟩]).todo.merge
              (TodoPatch.mk none none (some true))
          else item)) :=
  ⟨rfl, rfl, by decide, by decide,
   updateTodo_existing_spec (TodoPatch.mk none none (some true))
     (AppState.mk false false ⟨some 2, "x", false⟩
       [⟨some 2, "x", false⟩, ⟨some 5, "y", true⟩]) 2 rfl rfl (by decide) (by decide)⟩

/-! ### Reachable states and the shared-id invariant -/

/-- One atomic `store.update` performed by an action function (App.js lines
40-108).  The two phases of each delayed action are separate atoms, so every
interleaving of in-flight actions is a trace of these. -/
inductive Act where
  | setLoading : Act
  | setSaving : Act
  | fetchRes (id1 id2 id3 : Nat) : Act
  | saveRes (newId : Nat) : Act
  | updateT (p : TodoPatch) : Act
  | removeRes (target : Todo) : Act
  | selectT (t : Todo) : Act
deriving DecidableEq, Repr

/-- The state transition of one atomic update. -/
def Act.run : Act → AppState → AppState
  | .setLoading, s => applyU setLoadingTrue s
  | .setSaving, s => applyU setSavingTrue s
  | .fetchRes id1 id2 id3, s => applyU (fetchResolve id1 id2 id3) s
  | .saveRes newId, s => applyU (saveResolve newId) s
  | .updateT p, s => applyU (updateTodoU p) s
  | .removeRes target, s => applyU (removeResolve target) s
  | .selectT t, s => selectTodoRun t s

/-- Run a sequence of atomic updates from a state. -/
def runTrace (tr : List Act) (s : AppState) : AppState :=
  tr.foldl (fun s a => a.run s) s

/-- How many `todos` entries share an id with the in-edit `todo`. -/
def sharesCount (s : AppState) : Nat :=
  (s.todos.filter fun it => it.id.isSome && (it.id == s.todo.id)).length

/-- Freshness of the `Math.random()` outputs an atomic update consumes:
the three fetched ids are pairwise distinct, and a saved fresh id is not
already in the list. -/
def Act.freshB : Act → AppState → Bool
  | .fetchRes id1 id2 id3, _ => decide (id1 ≠ id2 ∧ id1 ≠ id3 ∧ id2 ≠ id3)
  | .saveRes newId, s => decide (some newId ∉ s.todos.map Todo.id)
  | _, _ => true

/-- Every atomic update of the trace consumes fresh random ids. -/
def freshTraceB : List Act → AppState → Bool
  | [], _ => true
  | a :: tr, s => a.freshB s && freshTraceB tr (a.run s)

/-- Replacing the id-matching entries of a list by a todo with that same id
leaves the list of ids unchanged. -/
theorem map_id_replace (l : List Todo) (c : Todo) :
    ((l.map fun item => if item.id = c.id then c else item).map Todo.id) = l.map Todo.id := by
  induction l with
  | nil => rfl
  | cons hd tl ih =>
    by_cases h : hd.id = c.id <;> simp [h, ih]

/-- Each atomic update consuming fresh ids preserves duplicate-freeness of the
ids in `todos`. -/
theorem run_preserves_nodup (a : Act) (s : AppState) (hf : a.freshB s = true)
    (h : (s.todos.map Todo.id).Nodup) : ((a.run s).todos.map Todo.id).Nodup := by
  cases a with
  | setLoading =>
    unfold Act.run applyU setLoadingTrue
    by_cases hl : s.loading <;> simp [hl, h]
  | setSaving =>
    unfold Act.run applyU setSavingTrue
    by_cases hl : s.saving <;> simp [hl, h]
  | fetchRes id1 id2 id3 =>
    simp only [Act.freshB, decide_eq_true_eq] at hf
    obtain ⟨h1, h2, h3⟩ := hf
    simp [Act.run, applyU, fetchResolve, List.nodup_cons, h1, h2, h3]
  | saveRes newId =>
    simp only [Act.freshB, decide_eq_true_eq] at hf
    unfold Act.run applyU saveResolve
    by_cases ht : s.todo.idTruthy
    · simp [ht, map_id_replace s.todos s.todo, h]
    · simp [ht, List.nodup_append, h, hf]
  | updateT p =>
    unfold Act.run applyU updateTodoU
    by_cases ht : (s.todo.merge p).idTruthy
    · simp [ht, map_id_replace s.todos (s.todo.merge p), h]
    · simp [ht, h]
  | removeRes target =>
    unfold Act.run applyU removeResolve
    simp only [Option.getD_some]
    exact ((List.filter_sublist s.todos).map Todo.id).nodup h
  | selectT t =>
    simpa [Act.run, selectTodoRun] using h

/-- A trace consuming fresh ids preserves duplicate-freeness of the ids. -/
theorem runTrace_preserves_nodup (tr : List Act) (s : AppState)
    (hf : freshTraceB tr s = true) (h : (s.todos.map Todo.id).Nodup) :
    ((runTrace tr s).todos.map Todo.id).Nodup := by
  induction tr generalizing s with
  | nil => exact h
  | cons a tr ih =>
    rw [freshTraceB, Bool.and_eq_true] at hf
    exact ih (a.run s) hf.2 (run_preserves_nodup a s hf.1 h)

/-- With duplicate-free ids, at most one entry carries any given id. -/
theorem filter_shared_length_le_one (l : List Todo) (x : Option Nat)
    (h : (l.map Todo.id).Nodup) :
    (l.filter fun it => it.id.isSome && (it.id == x)).length ≤ 1 := by
  induction l with
  | nil => simp
  | cons hd tl ih =>
    rw [List.map_cons, List.nodup_cons] at h
    rw [List.filter_cons]
    by_cases hp : (hd.id.isSome && (hd.id == x)) = true
    · rw [if_pos hp]
      rw [Bool.and_eq_true] at hp
      have hx : hd.id = x := eq_of_beq hp.2
      have hnil : (tl.filter fun it => it.id.isSome && (it.id == x)) = [] := by
        rw [List.filter_eq_nil_iff]
        intro it hit hpit
        rw [Bool.and_eq_true] at hpit
        have hix : it.id = x := eq_of_beq hpit.2
        have hmm : it.id ∈ List.map Todo.id tl := List.mem_map_of_mem Todo.id hit
        rw [hix, ← hx] at hmm
        exact h.1 hmm
      simp [hnil]
    · rw [if_neg hp]
      exact ih h.2

/-- Counterexample to claim C9 as stated: ids are `Math.random()` outputs with
no uniqueness guarantee, so a fetch may seed two entries with the same id;
selecting one of them then leaves two `todos` entries sharing an id with the
in-edit todo.  The invariant is not enforced by the replace-on-id-match logic
alone. -/
theorem reachable_shared_cex :
    ¬ sharesCount (runTrace
        [Act.setLoading, Act.fetchRes 5 5 7, Act.selectT ⟨some 5, "Hello...", false⟩]
        initialState) ≤ 1 := by
  decide

/-- Claim C9 (amended: provided every random id an update consumes is fresh —
fetched ids pairwise distinct, saved ids not already present): every state
reachable from the initial one through store-mediated operations has at most
one `todos` entry sharing an id with the in-edit `todo`. -/
theorem reachable_at_most_one_shared (tr : List Act)
    (hf : freshTraceB tr initialState = true) :
    sharesCount (runTrace tr initialState) ≤ 1 :=
  filter_shared_length_le_one _ _
    (runTrace_preserves_nodup tr initialState hf (by simp [initialState]))

/-- Witness for the amended C9: a fetch with distinct ids, selecting the first
seeded todo, then marking it done leaves exactly one sharing entry. -/
theorem reachable_at_most_one_shared_witness :
    freshTraceB
      [Act.setLoading, Act.fetchRes 1 2 3, Act.selectT ⟨some 1, "Hello...", false⟩,
       Act.updateT ⟨none, none, some true⟩]
      initialState = true ∧
    sharesCount (runTrace
      [Act.setLoading, Act.fetchRes 1 2 3, Act.selectT ⟨some 1, "Hello...", false⟩,
       Act.updateT ⟨none, none, some true⟩]
      initialState) ≤ 1 :=
  ⟨by decide,
   reachable_at_most_one_shared
     [Act.setLoading, Act.fetchRes 1 2 3, Act.selectT ⟨some 1, "Hello...", false⟩,
      Act.updateT ⟨none, none, some true⟩]
     (by decide)⟩

end TodoApp
